import Mathlib

/-!
Verification development for the deno-tf-bridge repository.

The definitions below are shallow embeddings of the Go and TypeScript
sources of the repository:

* `internal/deno/deno_permissions.go` — `Permissions`, `PermissionsTF`
  and the two mapping functions between them.
* The Go `DenoClient` for the stdio JSON-RPC binding (`Start`, `Stop`,
  `locateDenoConfigFile`).
* `internal/deno/deno_client_ephemeral_resource.go` (`Close`) and
  `internal/deno/deno_client_resource.go` (`ModifyPlan`).
* The TypeScript worker `json_rpc_example/bob/main.ts`
  (`processMessage`) and the Go secure-binding client in the same file
  (`Start`'s stdin handshake write, `parseHandshake`).

Effectful library calls (filesystem stat, `url.Parse`, `filepath.Abs`,
pipe creation, process start, JSON-RPC calls, `cmd.Wait`) are modelled
as environment records supplying the result each call would return, so
every definition is an executable Lean function of the code's inputs
plus that environment.  Strings follow Unix path semantics
(`filepath.FromSlash` is the identity, `filepath.VolumeName` is empty).
-/

/-! ## Generic helpers -/

/-- Association-list lookup, modelling a Go `map[K]V` read (`v, ok := m[k]`). -/
def lookupAssoc {α β : Type} [DecidableEq α] : List (α × β) → α → Option β
  | [], _ => none
  | (k, v) :: rest, key => if k = key then some v else lookupAssoc rest key

/-- Association-list erase, modelling Go's `delete(m, k)` / JS `Map.delete`. -/
def eraseAssoc {α β : Type} [DecidableEq α] : List (α × β) → α → List (α × β)
  | [], _ => []
  | (k, v) :: rest, key => if k = key then eraseAssoc rest key else (k, v) :: eraseAssoc rest key

/-- Boolean test that the character list `p` starts the character list `s`. -/
def charsStartWith : List Char → List Char → Bool
  | _, [] => true
  | [], _ :: _ => false
  | c :: cs, p :: ps => c = p && charsStartWith cs ps

/-- Test `strStartsWith s p` is true when the string `s` begins with `p`
(used to talk about flag-shaped strings such as `--allow-net`). -/
def strStartsWith (s p : String) : Bool :=
  charsStartWith s.toList p.toList

/-- Boolean test that the character list `pat` occurs somewhere in `s`. -/
def charsContain : List Char → List Char → Bool
  | [], pat => pat.isEmpty
  | c :: rest, pat => charsStartWith (c :: rest) pat || charsContain rest pat

/-- Go `strings.Contains s pat`. -/
def strContains (s pat : String) : Bool :=
  charsContain s.toList pat.toList

/-- JavaScript whitespace, for `String.prototype.trim` (the characters
that matter for the protocol are space, tab, CR, LF). -/
def isJsSpace (c : Char) : Bool :=
  c = ' ' ∨ c = '\t' ∨ c = '\n' ∨ c = '\r'

/-- JavaScript `s.trim()`: drop leading and trailing whitespace. -/
def strTrim (s : String) : String :=
  String.mk (((s.toList.dropWhile isJsSpace).reverse.dropWhile isJsSpace).reverse)

/-- Returns `true` iff an `Except` is in its `ok` constructor (Go: `err == nil`). -/
def exceptIsOk {ε α : Type} : Except ε α → Bool
  | .ok _ => true
  | .error _ => false

/-! ## Permissions data model — `internal/deno/deno_permissions.go`

Go slices distinguish `nil` from an allocated empty slice; `Allow` and
`Deny` are therefore `Option (List String)` with `none` modelling a
`nil` slice.  Terraform-framework values: `types.Bool` carries a plain
`Bool`; `types.List` is either the null list or a list of attribute
values, and an attribute value is a string value or something else
(matching the `elem.(types.String)` type assertion in the source). -/

structure Permissions where
  All : Bool
  Allow : Option (List String)
  Deny : Option (List String)
  deriving Repr, DecidableEq

inductive AttrValue : Type
  | str (s : String)
  | other
  deriving Repr, DecidableEq

inductive TFList : Type
  | null
  | vals (elems : List AttrValue)
  deriving Repr, DecidableEq

structure PermissionsTF where
  All : Bool
  Allow : TFList
  Deny : TFList
  deriving Repr, DecidableEq

/-- Model of `Permissions.MapToDenoPermissionsTF` (receiver may be a nil pointer,
hence `Option Permissions`).  A `nil` receiver maps to
`{All: false, Allow: ListNull, Deny: ListNull}`; otherwise each slice is
converted element-wise into a non-null `types.List` (an empty slice and
a nil slice both become the empty non-null list, as in the source's
`len(...) == 0` branch). -/
def mapToDenoPermissionsTF : Option Permissions → PermissionsTF
  | none =>
      { All := false, Allow := TFList.null, Deny := TFList.null }
  | some p =>
      let allowSlice := p.Allow.getD []
      let denySlice := p.Deny.getD []
      { All := p.All
        Allow :=
          if allowSlice.length = 0 then TFList.vals []
          else TFList.vals (allowSlice.map AttrValue.str)
        Deny :=
          if denySlice.length = 0 then TFList.vals []
          else TFList.vals (denySlice.map AttrValue.str) }

/-- The string payload of an attribute value, when it is a string
(the source's `elem.(types.String)` type assertion). -/
def attrValueString : AttrValue → Option String
  | .str s => some s
  | .other => none

/-- Model of `PermissionsTF.MapToDenoPermissions` (receiver may be a nil pointer).
A `nil` receiver yields the most restrictive default
`{All: false, Allow: []string{}, Deny: []string{}}` (allocated empty
slices, not nil).  Otherwise a null `types.List` leaves the Go slice at
its zero value `nil`, and a non-null list is rebuilt keeping only
string-typed elements. -/
def mapToDenoPermissions : Option PermissionsTF → Permissions
  | none =>
      { All := false, Allow := some [], Deny := some [] }
  | some p =>
      { All := p.All
        Allow :=
          match p.Allow with
          | TFList.null => none
          | TFList.vals es => some (es.filterMap attrValueString)
        Deny :=
          match p.Deny with
          | TFList.null => none
          | TFList.vals es => some (es.filterMap attrValueString) }

/-! ## Worker argument vector — `DenoClient.Start` (stdio binding)

The permission flags, config-file flag and script-argument resolution
of `Start`.  `url.Parse` and `filepath.Abs` results come from a
`ScriptEnv`. -/

/-- Go `fmt.Sprintf("--allow-%s", perm)`. -/
def allowFlag (perm : String) : String := "--allow-" ++ perm

/-- Go `fmt.Sprintf("--deny-%s", perm)`. -/
def denyFlag (perm : String) : String := "--deny-" ++ perm

/-- The permission portion of the argument vector: `--allow-all` when
`All` is set, otherwise every allow-list entry then every deny-list
entry (a nil slice ranges as empty), and nothing when the permission
specification pointer is nil. -/
def permissionArgs : Option Permissions → List String
  | none => []
  | some p =>
      if p.All then ["--allow-all"]
      else (p.Allow.getD []).map allowFlag ++ (p.Deny.getD []).map denyFlag

/-- The config-file portion: the configured path, or the located one
when none is configured; skipped when empty or `/dev/null`. -/
def configArgsOf (locatedConfig configPath0 : String) : List String :=
  let configPath := if configPath0 = "" then locatedConfig else configPath0
  if configPath ≠ "" ∧ configPath ≠ "/dev/null" then ["-c", configPath] else []

/-- Result of `url.Parse`. -/
structure ParsedUrl where
  scheme : String
  path : String
  deriving Repr, DecidableEq

/-- Results of the effectful library calls made while resolving the
script argument. -/
structure ScriptEnv where
  parseUrl : String → Except String ParsedUrl
  abs : String → Except String String

/-- The Windows drive-letter fix-up: `path[0] == '/' && path[2] == ':'`
(for a path of byte length > 2) drops the leading slash. -/
def stripDriveSlash (path : String) : String :=
  match path.toList with
  | c0 :: c1 :: c2 :: rest =>
      if c0 = '/' ∧ c2 = ':' then String.mk (c1 :: c2 :: rest) else path
  | _ => path

/-- Script-argument resolution in `Start`: a `scheme://` reference is
URL-parsed — `file://` is converted to an absolute local path, any
other scheme passes through unmodified; a plain path is made absolute.
(`filepath.FromSlash` is the identity on Unix.) -/
def resolveScriptArg (env : ScriptEnv) (scriptPath : String) : Except String String :=
  if strContains scriptPath "://" then
    match env.parseUrl scriptPath with
    | .error e => .error ("failed to parse script URL: " ++ e)
    | .ok u =>
        if u.scheme = "file" then
          match env.abs (stripDriveSlash u.path) with
          | .error e => .error ("failed to resolve script path: " ++ e)
          | .ok a => .ok a
        else .ok scriptPath
  else
    match env.abs scriptPath with
    | .error e => .error ("failed to resolve script path: " ++ e)
    | .ok a => .ok a

/-- The health response decoded by `Start`: `struct { Ok bool }`. -/
structure HealthResponse where
  ok : Bool
  deriving Repr, DecidableEq

/-- Results of the effectful steps of `DenoClient.Start` (stdio
binding): the located config file, script resolution, the three pipe
creations, the process start, and the `health` JSON-RPC call. -/
structure StartEnv where
  locatedConfig : String
  script : ScriptEnv
  stdinPipe : Except String Unit
  stdoutPipe : Except String Unit
  stderrPipe : Except String Unit
  procStart : Except String Unit
  health : Except String HealthResponse

/-- Fields of the `DenoClient` receiver that `Start` reads. -/
structure ClientCfg where
  scriptPath : String
  configPath : String
  permissions : Option Permissions

/-- The argument-vector construction of `Start`:
`["run", "-q"]`, the config flag, the permission flags, then the
resolved script argument. -/
def denoClientBuildArgs (env : StartEnv) (c : ClientCfg) : Except String (List String) :=
  match resolveScriptArg env.script c.scriptPath with
  | .error e => .error e
  | .ok scriptArg =>
      .ok (["run", "-q"] ++ configArgsOf env.locatedConfig c.configPath
            ++ permissionArgs c.permissions ++ [scriptArg])

/-- Model of `DenoClient.Start` (stdio binding): build the argument vector, wire
the three pipes, start the process, then gate on the `health` call —
a call error is returned wrapped, a response with `Ok == false` is
returned as `deno process unhealthy`, and only `Ok == true` yields
`nil`. -/
def denoClientStart (env : StartEnv) (c : ClientCfg) : Except String Unit :=
  match denoClientBuildArgs env c with
  | .error e => .error e
  | .ok _args =>
    match env.stdinPipe with
    | .error e => .error ("failed to create stdin pipe: " ++ e)
    | .ok _ =>
    match env.stdoutPipe with
    | .error e => .error ("failed to create stdout pipe: " ++ e)
    | .ok _ =>
    match env.stderrPipe with
    | .error e => .error ("failed to create stderr pipe: " ++ e)
    | .ok _ =>
    match env.procStart with
    | .error e => .error ("failed to start Deno process: " ++ e)
    | .ok _ =>
    match env.health with
    | .error e => .error ("failed to call the Deno JSON-RPC servers health method: " ++ e)
    | .ok r => if r.ok = false then .error "deno process unhealthy" else .ok ()

/-! ## `DenoClient.Stop` (stdio binding)

`Stop` notifies `shutdown`, closes the socket, then calls
`c.process.Wait()` with no timeout; any non-nil `Wait` error — which
per `os/exec` includes every non-zero exit status (`*ExitError`) — is
wrapped and returned. -/

structure StopEnv where
  socketPresent : Bool
  notifyResult : Except String Unit
  closeResult : Except String Unit
  processPresent : Bool
  /-- The error returned by `c.process.Wait()`; a non-zero exit status
  surfaces here as `.error "exit status N"` per `os/exec` semantics. -/
  waitResult : Except String Unit

def denoClientStop (env : StopEnv) : Except String Unit :=
  let socketStep : Except String Unit :=
    if env.socketPresent then
      match env.notifyResult with
      | .error e => .error ("failed to notify deno child proc to shutdown gracefully: " ++ e)
      | .ok _ =>
        match env.closeResult with
        | .error e => .error ("failed to close jsocket and release resources: " ++ e)
        | .ok _ => .ok ()
    else .ok ()
  match socketStep with
  | .error e => .error e
  | .ok _ =>
      if env.processPresent then
        match env.waitResult with
        | .error e => .error ("deno child proc died: " ++ e)
        | .ok _ => .ok ()
      else .ok ()

/-- A `StopEnv` in which shutdown was notified and the socket closed
successfully, and the worker then exited with a non-zero status, so
`Wait` returned `exit status 1`. -/
def stopEnvNonZeroExit : StopEnv :=
  { socketPresent := true
    notifyResult := .ok ()
    closeResult := .ok ()
    processPresent := true
    waitResult := .error "exit status 1" }

/-! ## Optional-method tolerance — `DenoClientEphemeralResource.Close`
and `DenoClientResource.ModifyPlan`

A JSON-RPC `Call` either succeeds with a decoded response or fails
with an error value; `errors.As(err, &rpcErr)` matches exactly when a
`*jsonrpc2.Error` (carrying a numeric code) is in the chain, so the
error type has an rpc constructor and a non-rpc one. -/

inductive CallErr : Type
  | rpc (code : Int) (message : String)
  | other (message : String)
  deriving Repr, DecidableEq

/-- Constant `jsonrpc2.CodeMethodNotFound`. -/
def codeMethodNotFound : Int := -32601

/-- How a `CallErr` renders inside a `fmt.Errorf("...: %v", err)`. -/
def callErrMessage : CallErr → String
  | .rpc code m => "jsonrpc2: code " ++ toString code ++ ": " ++ m
  | .other m => m

/-- The `close` response: `struct { Done bool }`. -/
structure CloseResponse where
  done : Bool
  deriving Repr, DecidableEq

/-- Model of `DenoClientEphemeralResource.Close`, as a function of the result of
`Socket.Call(ctx, "close", params, &response)`: a method-not-found rpc
error is swallowed (`close` is optional), any other error is wrapped
and returned, and a successful response must have `Done == true`. -/
def ephemeralClose (callResult : Except CallErr CloseResponse) : Except String Unit :=
  match callResult with
  | .error err =>
      match err with
      | .rpc code m =>
          if code = codeMethodNotFound then .ok ()
          else .error ("failed to call close method over JSON-RPC: " ++ callErrMessage (.rpc code m))
      | .other m =>
          .error ("failed to call close method over JSON-RPC: " ++ callErrMessage (.other m))
  | .ok response =>
      if response.done = false then .error "close call not done" else .ok ()

/-- The `modifyPlan` response shape (field contents are irrelevant to
the control flow; the decoded pointer may be nil, hence callers pass
`Option ModifyPlanResp`). -/
structure ModifyPlanResp where
  noChanges : Option Bool
  requiresReplacement : Option Bool
  deriving Repr, DecidableEq

/-- Model of `DenoClientResource.ModifyPlan`, as a function of the result of
`Socket.Call(ctx, "modifyPlan", params, &response)`: a method-not-found
rpc error yields `(nil, nil)` (`modifyPlan` is optional), any other
error is wrapped and returned, and a success returns the decoded
response. -/
def resourceModifyPlan {α : Type} (callResult : Except CallErr α) : Except String (Option α) :=
  match callResult with
  | .error err =>
      match err with
      | .rpc code m =>
          if code = codeMethodNotFound then .ok none
          else .error ("failed to call modifyPlan method over JSON-RPC: " ++ callErrMessage (.rpc code m))
      | .other m =>
          .error ("failed to call modifyPlan method over JSON-RPC: " ++ callErrMessage (.other m))
  | .ok response => .ok (some response)

/-! ## The worker's message processor — `json_rpc_example/bob/main.ts`

`processMessage(line)` parses a line; a JSON object with
`jsonrpc === "2.0"`, a defined `id` and no `method` is a Response from
Alice and is delivered to the registered waiter for that id (clearing
its timeout and removing it from the map), or dropped when no waiter is
registered; anything else is handed to `bobServer.handleRequest` and a
non-empty response string is written back to stdout; a JSON parse
failure is caught and answered with a `-32700` error Response.
`JSON.parse` is modelled by an `Except String JsonMsg` argument whose
error carries `String(error)`; `bobServer.handleRequest` by a
`String → String` function.  Writes to stderr (`console.error`) are
not modelled. -/

structure JsonMsg where
  jsonrpc : Option String
  id : Option Int
  method : Option String
  deriving Repr, DecidableEq

inductive BobEffect : Type
  | clearTimeout (waiterToken : Nat)
  | resolve (id : Int) (line : String)
  | stdoutWrite (s : String)
  deriving Repr, DecidableEq

/-- The JSON text of the catch-all error Response
`(code -32700, id null, data String(error))`. -/
def parseErrorLine (errText : String) : String :=
  "\x7b\"jsonrpc\":\"2.0\",\"id\":null,\"error\":\x7b\"code\":-32700,\"message\":\"Parse error\",\"data\":\""
    ++ errText ++ "\"\x7d\x7d"

/-- Waiter map: request id to the waiter's timeout token
(the `aliceResponseWaiters` `Map`). -/
abbrev WaiterMap := List (Int × Nat)

def processMessage (handleRequest : String → String) (waiters : WaiterMap)
    (line : String) (parsed : Except String JsonMsg) : WaiterMap × List BobEffect :=
  if strTrim line = "" then (waiters, [])
  else
    match parsed with
    | .error errText => (waiters, [BobEffect.stdoutWrite (parseErrorLine errText ++ "\n")])
    | .ok message =>
        if message.jsonrpc = some "2.0" ∧ message.id ≠ none ∧ message.method = none then
          match message.id with
          | none => (waiters, [])
          | some respId =>
              match lookupAssoc waiters respId with
              | some waiterToken =>
                  (eraseAssoc waiters respId,
                    [BobEffect.clearTimeout waiterToken, BobEffect.resolve respId line])
              | none => (waiters, [])
        else
          let responseStr := handleRequest line
          if strTrim responseStr ≠ "" then
            (waiters, [BobEffect.stdoutWrite (responseStr ++ "\n")])
          else (waiters, [])

/-! ## Secure-binding handshake — Go `DenoClient.parseHandshake`

`parseHandshake` races three events: the 30s context timeout, process
exit (`Wait` error or clean), and the reader goroutine's result for the
first stdout line.  The reader outcome is: a line whose
`json.Unmarshal` into `handshakeMessage` failed (`decoded = none`) or
succeeded (missing JSON fields decode to the zero values `0` / `""`),
a scanner error, or EOF. -/

structure HandshakeMsg where
  cert : String
  key : String
  port : Int
  deriving Repr, DecidableEq

inductive ReadOutcome : Type
  | line (decoded : Option HandshakeMsg) (raw : String)
  | readErr (e : String)
  | eof
  deriving Repr, DecidableEq

inductive RaceWinner : Type
  | timeout
  | procExit (waitErr : Option String)
  | readDone (r : ReadOutcome)
  deriving Repr, DecidableEq

/-- The reader goroutine's classification of the first stdout line. -/
def handshakeReaderResult : ReadOutcome → Except String (String × Int)
  | .line none raw =>
      .error ("failed to parse handshake JSON (line: " ++ raw ++ ")")
  | .line (some msg) _ =>
      if msg.port = 0 then .error "handshake missing port field"
      else if msg.cert = "" then .error "handshake missing cert field"
      else .ok (msg.cert, msg.port)
  | .readErr e => .error ("error reading handshake: " ++ e)
  | .eof => .error "EOF before handshake received"

/-- Model of `parseHandshake`, as a function of which raced event won the
`select`. -/
def parseHandshake : RaceWinner → Except String (String × Int)
  | .timeout =>
      .error "timeout waiting for handshake from Deno server (scripts must implement mTLS handshake - see documentation)"
  | .procExit (some e) =>
      .error ("deno process exited during handshake with error: " ++ e)
  | .procExit none =>
      .error "deno process exited during handshake unexpectedly"
  | .readDone r => handshakeReaderResult r

/-! ## Secure-binding stdin handshake write — Go `DenoClient.Start`

`Start` generates `(certPEM, keyPEM, tlsCert)` and then writes
`handshakeMessage{Cert: certPEM}` — `Key` and `Port` carry
`omitempty` and are left at their zero values — with a
`json.NewEncoder(stdin).Encode` (marshalled JSON plus a trailing
newline), then immediately closes stdin.  The JSON string escaping
follows `encoding/json` (HTML escaping on). -/

def hexDigit (n : Nat) : Char :=
  if n < 10 then Char.ofNat (48 + n) else Char.ofNat (87 + n)

def goJsonEscapeChar (c : Char) : String :=
  if c = '"' then "\\\""
  else if c = '\\' then "\\\\"
  else if c = '\n' then "\\n"
  else if c = '\r' then "\\r"
  else if c = '\t' then "\\t"
  else if c = '<' ∨ c = '>' ∨ c = '&' ∨ c.toNat < 32 then
    "\\u00" ++ String.mk [hexDigit (c.toNat / 16), hexDigit (c.toNat % 16)]
  else String.mk [c]

def goJsonString (s : String) : String :=
  "\"" ++ String.join (s.toList.map goJsonEscapeChar) ++ "\""

/-- Go `json.Marshal` of `handshakeMessage{Cert, Key ,omitempty, Port
,omitempty}`: fields in declaration order, the empty-string `key` and
zero `port` omitted. -/
def encodeHandshakeMessage (m : HandshakeMsg) : String :=
  "\x7b\"cert\":" ++ goJsonString m.cert
    ++ (if m.key ≠ "" then ",\"key\":" ++ goJsonString m.key else "")
    ++ (if m.port ≠ 0 then ",\"port\":" ++ toString m.port else "")
    ++ "\x7d"

inductive StdinOp : Type
  | write (bytes : String)
  | close
  deriving Repr, DecidableEq

/-- The sequence of operations `Start` performs on the worker's stdin:
encode `handshakeMessage{Cert: certPEM}` (an `Encoder.Encode`, so a
trailing newline) and close.  `keyPEM` is in scope at this point in
`Start` but never referenced by the write. -/
def secureStartStdinOps (certPEM keyPEM : String) : List StdinOp :=
  let clientMsg : HandshakeMsg := { cert := certPEM, key := "", port := 0 }
  [StdinOp.write (encodeHandshakeMessage clientMsg ++ "\n"), StdinOp.close]

/-! ## Config-file lookup — `locateDenoConfigFile`

The filesystem and path library are an environment: `stat` says
whether a path exists, `parent` is `filepath.Dir`, `dirOf` is the
`filepath.Dir` of the script path, and `parseFileUrl` is the
`url.Parse` path extraction for a `file://` URL (`none` models a parse
error, in which case the original string is kept).  Unix semantics:
`filepath.VolumeName` is `""` and the separator is `/`.  The unbounded
`for` loop walks a `parent` chain and is modelled with fuel; the loop
state never revisits a directory in practice because `filepath.Dir`
strictly shortens a cleaned path, so any fuel at least the chain length
is enough. -/

structure DenoFS where
  stat : String → Bool
  parent : String → String
  dirOf : String → String
  parseFileUrl : String → Option String

/-- Go `filepath.Join dir file` for a cleaned directory (Unix). -/
def joinPath (dir file : String) : String :=
  if dir = "/" then dir ++ file else dir ++ "/" ++ file

/-- The walk loop: check `deno.json` then `deno.jsonc` in the current
directory, then move to the parent until it stops changing, is the
(empty) volume name, or is the root separator. -/
def walkUp (fs : DenoFS) : Nat → String → String
  | 0, _ => ""
  | fuel + 1, currentDir =>
      if fs.stat (joinPath currentDir "deno.json") then joinPath currentDir "deno.json"
      else if fs.stat (joinPath currentDir "deno.jsonc") then joinPath currentDir "deno.jsonc"
      else
        let parentDir := fs.parent currentDir
        if parentDir = currentDir ∨ parentDir = "" ∨ parentDir = "/" then ""
        else walkUp fs fuel parentDir

/-- The `file://` conversion at the top of `locateDenoConfigFile`. -/
def convertScriptPath (fs : DenoFS) (scriptPath : String) : String :=
  if strStartsWith scriptPath "file://" then
    match fs.parseFileUrl scriptPath with
    | some p => stripDriveSlash p
    | none => scriptPath
  else scriptPath

/-- Model of `locateDenoConfigFile`, with the global `cachedConfigLookups` map
passed and returned explicitly: convert a `file://` URL, refuse other
schemes, consult the cache, otherwise walk up from the script's
directory; the source stores into the cache exactly at the two
found-a-config return sites, so a not-found result is returned without
touching the cache. -/
def locateDenoConfigFile (fs : DenoFS) (fuel : Nat) (cache : List (String × String))
    (scriptPath0 : String) : String × List (String × String) :=
  let scriptPath := convertScriptPath fs scriptPath0
  if strContains scriptPath "://" then ("", cache)
  else
    match lookupAssoc cache scriptPath with
    | some cached => (cached, cache)
    | none =>
        let found := walkUp fs fuel (fs.dirOf scriptPath)
        if found = "" then ("", cache) else (found, (scriptPath, found) :: cache)

/-- A filesystem with no config file anywhere: every `stat` fails; the
directory of `/a/b/c.ts` is `/a/b` and every parent is `/`. -/
def fsNoConfig : DenoFS :=
  { stat := fun _ => false
    parent := fun _ => "/"
    dirOf := fun _ => "/a/b"
    parseFileUrl := fun _ => none }

/-! ## Concrete environments used by the witnesses -/

/-- Environment for the C4 witness. -/
def envPermLayout : StartEnv :=
  { locatedConfig := "/p/deno.json"
    script := { parseUrl := fun _ => .error "no url", abs := fun s => .ok s }
    stdinPipe := .ok (), stdoutPipe := .ok (), stderrPipe := .ok ()
    procStart := .ok (), health := .ok { ok := true } }

/-- Client configuration for the C4 witness: allow `read` and `net`,
deny `write`. -/
def cfgPermLayout : ClientCfg :=
  { scriptPath := "/s.ts", configPath := ""
    permissions := some { All := false, Allow := some ["read", "net"], Deny := some ["write"] } }

/-- Environment for the C5 witness. -/
def envNilPerm : StartEnv :=
  { locatedConfig := "/p/deno.json"
    script := { parseUrl := fun _ => .error "no url", abs := fun s => .ok s }
    stdinPipe := .ok (), stdoutPipe := .ok (), stderrPipe := .ok ()
    procStart := .ok (), health := .ok { ok := true } }

/-- Client configuration for the C5 witness: no permission
specification. -/
def cfgNilPerm : ClientCfg :=
  { scriptPath := "/s.ts", configPath := "", permissions := none }

/-- Environment for the C2 witness: every step succeeds and the health
response is `ok: true`. -/
def envHealthy : StartEnv :=
  { locatedConfig := ""
    script := { parseUrl := fun _ => .error "no url", abs := fun s => .ok s }
    stdinPipe := .ok (), stdoutPipe := .ok (), stderrPipe := .ok ()
    procStart := .ok (), health := .ok { ok := true } }

/-- Client configuration for the C2 witness. -/
def cfgHealthy : ClientCfg :=
  { scriptPath := "/s.ts", configPath := "", permissions := none }

/-- A filesystem carrying `/a/deno.json`: the directory of `/a/b/c.ts`
is `/a/b`, whose parent is `/a`, whose parent is the root. -/
def fsWithConfig : DenoFS :=
  { stat := fun p => if p = "/a/deno.json" then true else false
    parent := fun d => if d = "/a/b" then "/a" else "/"
    dirOf := fun _ => "/a/b"
    parseFileUrl := fun _ => none }

/-! ## Helper lemmas -/

/-- Rebuilding a list of string attribute values recovers the strings. -/
theorem filterMap_attrValueString_map_str (l : List String) :
    (l.map AttrValue.str).filterMap attrValueString = l := by
  induction l with
  | nil => rfl
  | cons x xs ih => simp [attrValueString, ih]


/-- Both branches of the slice-to-list conversion produce the non-null
list of string values. -/
theorem tfValsOf (l : List String) :
    (if l.length = 0 then TFList.vals [] else TFList.vals (l.map AttrValue.str))
      = TFList.vals (l.map AttrValue.str) := by
  by_cases h : l.length = 0
  · simp [h, List.length_eq_zero.mp h]
  · simp [h]

/-! ## Claim theorems -/

/-- C10: mapping a `Permissions` value with non-nil `Allow`/`Deny`
slices to Terraform values and back yields the same `All` flag and the
same `Allow`/`Deny` elements in order; and mapping a nil
`*PermissionsTF` yields the most restrictive
`Permissions{All: false, Allow: [], Deny: []}`. -/
theorem permissions_roundtrip :
    (∀ (b : Bool) (as ds : List String),
        mapToDenoPermissions (some (mapToDenoPermissionsTF
            (some { All := b, Allow := some as, Deny := some ds })))
          = { All := b, Allow := some as, Deny := some ds })
    ∧ mapToDenoPermissions none = { All := false, Allow := some [], Deny := some [] } := by
  constructor
  · intro b as ds
    simp only [mapToDenoPermissionsTF, mapToDenoPermissions, Option.getD_some, tfValsOf,
      filterMap_attrValueString_map_str]
  · rfl

/-- C4: with a non-nil permission specification, the argument vector
built by `Start` is the fixed prefix, the config flag, the permission
flags and the script argument in that order; when `All` is false the
permission flags are exactly one `--allow-<p>` per allow entry followed
by one `--deny-<q>` per deny entry (so every deny flag sits after every
allow flag), and when `All` is true they are exactly `["--allow-all"]`
with no per-capability flag. -/
theorem start_permission_flag_layout (env : StartEnv) (c : ClientCfg)
    (p : Permissions) (s : String)
    (hperm : c.permissions = some p)
    (hscript : resolveScriptArg env.script c.scriptPath = Except.ok s) :
    denoClientBuildArgs env c
      = Except.ok (["run", "-q"] ++ configArgsOf env.locatedConfig c.configPath
          ++ permissionArgs (some p) ++ [s])
    ∧ (p.All = false →
        permissionArgs (some p)
          = (p.Allow.getD []).map allowFlag ++ (p.Deny.getD []).map denyFlag)
    ∧ (p.All = true → permissionArgs (some p) = ["--allow-all"]) := by
  refine ⟨?_, ?_, ?_⟩
  · simp [denoClientBuildArgs, hscript, hperm]
  · intro hall; simp [permissionArgs, hall]
  · intro hall; simp [permissionArgs, hall]

theorem start_permission_flag_layout_witness :
    denoClientBuildArgs envPermLayout cfgPermLayout
      = Except.ok ["run", "-q", "-c", "/p/deno.json",
          "--allow-read", "--allow-net", "--deny-write", "/s.ts"] := by
  have h := start_permission_flag_layout envPermLayout cfgPermLayout
    { All := false, Allow := some ["read", "net"], Deny := some ["write"] } "/s.ts" rfl
    (by rfl)
  rw [h.1]; rfl

/-- C5: with a nil permission specification, the argument vector built
by `Start` is just the fixed prefix, the config flag and the script
argument, and (whenever the config path and script argument are not
themselves permission-flag-shaped strings) it contains no `--allow-` or
`--deny-` flag at all. -/
theorem start_nil_permissions_no_flags (env : StartEnv) (c : ClientCfg) (s : String)
    (hperm : c.permissions = none)
    (hscript : resolveScriptArg env.script c.scriptPath = Except.ok s)
    (hcfg : ∀ a ∈ configArgsOf env.locatedConfig c.configPath,
      strStartsWith a "--allow-" = false ∧ strStartsWith a "--deny-" = false)
    (hs : strStartsWith s "--allow-" = false ∧ strStartsWith s "--deny-" = false) :
    denoClientBuildArgs env c
      = Except.ok (["run", "-q"] ++ configArgsOf env.locatedConfig c.configPath ++ [s])
    ∧ ∀ a ∈ ["run", "-q"] ++ configArgsOf env.locatedConfig c.configPath ++ [s],
        strStartsWith a "--allow-" = false ∧ strStartsWith a "--deny-" = false := by
  constructor
  · simp [denoClientBuildArgs, hscript, hperm, permissionArgs]
  · intro a ha
    rcases List.mem_append.mp ha with h1 | h2
    · rcases List.mem_append.mp h1 with h3 | h4
      · rcases List.mem_cons.mp h3 with h | h
        · subst h; exact ⟨rfl, rfl⟩
        · rcases List.mem_singleton.mp h with rfl
          exact ⟨rfl, rfl⟩
      · exact hcfg a h4
    · rcases List.mem_singleton.mp h2 with rfl
      exact hs

theorem start_nil_permissions_no_flags_witness :
    denoClientBuildArgs envNilPerm cfgNilPerm
      = Except.ok (["run", "-q"] ++ configArgsOf envNilPerm.locatedConfig cfgNilPerm.configPath
          ++ ["/s.ts"]) :=
  (start_nil_permissions_no_flags envNilPerm cfgNilPerm "/s.ts" rfl (by rfl)
    (by decide) (by decide)).1

/-- C2: `DenoClient.Start` (stdio binding) returns nil only when the
`health` call succeeded and the decoded response has `ok == true`; in
particular a health-call error or an `ok == false` response can never
coexist with a nil return. -/
theorem start_health_gate (env : StartEnv) (c : ClientCfg)
    (h : denoClientStart env c = Except.ok ()) :
    ∃ r, env.health = Except.ok r ∧ r.ok = true := by
  cases hb : denoClientBuildArgs env c with
  | error e => simp [denoClientStart, hb] at h
  | ok args =>
    cases h1 : env.stdinPipe with
    | error e => simp [denoClientStart, hb, h1] at h
    | ok u1 =>
      cases h2 : env.stdoutPipe with
      | error e => simp [denoClientStart, hb, h1, h2] at h
      | ok u2 =>
        cases h3 : env.stderrPipe with
        | error e => simp [denoClientStart, hb, h1, h2, h3] at h
        | ok u3 =>
          cases h4 : env.procStart with
          | error e => simp [denoClientStart, hb, h1, h2, h3, h4] at h
          | ok u4 =>
            cases hh : env.health with
            | error e => simp [denoClientStart, hb, h1, h2, h3, h4, hh] at h
            | ok r =>
              cases hro : r.ok with
              | false => simp [denoClientStart, hb, h1, h2, h3, h4, hh, hro] at h
              | true => exact ⟨r, rfl, hro⟩

theorem start_health_gate_witness :
    ∃ r, envHealthy.health = Except.ok r ∧ r.ok = true :=
  start_health_gate envHealthy cfgHealthy (by rfl)

/-- C6 counterexample: in `DenoClient.Stop` (stdio binding), after the
`shutdown` Notify and socket close both succeeded, a non-zero exit
status observed by `Wait` (which `os/exec` reports as a non-nil
`*ExitError`) IS reported by `Stop` as an error — the claim that it is
not reported fails at this input; the model also shows the wait is a
bare `Wait()` with no timeout or force-kill arm. -/
theorem stop_counterexample_nonzero_exit_reported :
    denoClientStop stopEnvNonZeroExit = Except.error "deno child proc died: exit status 1"
    ∧ denoClientStop stopEnvNonZeroExit ≠ Except.ok () := by
  constructor
  · rfl
  · intro h
    simp [denoClientStop, stopEnvNonZeroExit] at h

/-- C6 (amended): after `Stop` has issued the `shutdown` Notify and
closed the socket successfully, any non-nil `Wait` error — including a
non-zero exit status — is wrapped as `deno child proc died` and
returned; there is no bounded wait and no force-kill fallback in
`Stop`. -/
theorem stop_reports_wait_error (env : StopEnv) (e : String)
    (hsock : env.socketPresent = true) (hn : env.notifyResult = Except.ok ())
    (hc : env.closeResult = Except.ok ()) (hp : env.processPresent = true)
    (hw : env.waitResult = Except.error e) :
    denoClientStop env = Except.error ("deno child proc died: " ++ e) := by
  simp [denoClientStop, hsock, hn, hc, hp, hw]

theorem stop_reports_wait_error_witness :
    denoClientStop stopEnvNonZeroExit = Except.error ("deno child proc died: " ++ "exit status 1") :=
  stop_reports_wait_error stopEnvNonZeroExit "exit status 1" rfl rfl rfl rfl rfl

/-- C3: a `close` or `modifyPlan` call failing with JSON-RPC code
`-32601` (method not found) is translated into "feature absent":
`Close` returns nil and `ModifyPlan` returns `(nil, nil)`; a call error
with any other rpc code, or a non-rpc call error, is returned to the
caller as an error. -/
theorem optional_method_not_found (m : String) (code : Int) :
    ephemeralClose (Except.error (CallErr.rpc codeMethodNotFound m)) = Except.ok ()
    ∧ resourceModifyPlan (α := ModifyPlanResp)
        (Except.error (CallErr.rpc codeMethodNotFound m)) = Except.ok none
    ∧ (code ≠ codeMethodNotFound →
        exceptIsOk (ephemeralClose (Except.error (CallErr.rpc code m))) = false
        ∧ exceptIsOk (resourceModifyPlan (α := ModifyPlanResp)
            (Except.error (CallErr.rpc code m))) = false)
    ∧ exceptIsOk (ephemeralClose (Except.error (CallErr.other m))) = false
    ∧ exceptIsOk (resourceModifyPlan (α := ModifyPlanResp)
        (Except.error (CallErr.other m))) = false := by
  refine ⟨?_, ?_, fun hcode => ⟨?_, ?_⟩, ?_, ?_⟩
  · simp [ephemeralClose]
  · simp [resourceModifyPlan]
  · simp [ephemeralClose, exceptIsOk, hcode]
  · simp [resourceModifyPlan, exceptIsOk, hcode]
  · simp [ephemeralClose, exceptIsOk]
  · simp [resourceModifyPlan, exceptIsOk]

theorem optional_method_not_found_witness :
    ephemeralClose (Except.error (CallErr.rpc codeMethodNotFound "close not implemented"))
      = Except.ok ()
    ∧ exceptIsOk (ephemeralClose (Except.error (CallErr.rpc (-32603) "boom"))) = false :=
  ⟨(optional_method_not_found "close not implemented" 0).1,
    ((optional_method_not_found "boom" (-32603)).2.2.1 (by decide)).1⟩

/-- C1: an incoming Response message (a parsed object with
`jsonrpc == "2.0"`, a defined id and no `method`) whose id has no
registered waiter is silently discarded by `processMessage`: the waiter
map is unchanged, nothing is written to stdout, no waiter is resolved,
and the function returns normally (no throw reaches the catch arm). -/
theorem orphan_response_discarded (handleRequest : String → String)
    (waiters : WaiterMap) (line : String) (m : JsonMsg) (i : Int)
    (hline : strTrim line ≠ "")
    (hrpc : m.jsonrpc = some "2.0") (hid : m.id = some i) (hm : m.method = none)
    (hw : lookupAssoc waiters i = none) :
    processMessage handleRequest waiters line (Except.ok m) = (waiters, []) := by
  simp [processMessage, hline, hrpc, hid, hm, hw]

theorem orphan_response_discarded_witness :
    processMessage (fun _ => "") [((1 : Int), 7)] "x"
        (Except.ok { jsonrpc := some "2.0", id := some 2, method := none })
      = ([((1 : Int), 7)], []) :=
  orphan_response_discarded (fun _ => "") [((1 : Int), 7)] "x"
    { jsonrpc := some "2.0", id := some 2, method := none } 2
    (by decide) rfl rfl rfl (by decide)

/-- C7: `parseHandshake` yields a result for every winner of the raced
events (so no hang survives the bounded timeout): success happens
exactly for a first line that decoded to a handshake carrying a
non-zero port and a non-empty cert; an undecodable line gives the
handshake-parse error; a decoded line with `port == 0` or `cert == ""`
gives the two distinct missing-field errors; EOF, a read error, process
exit and the timeout each give an error. -/
theorem parse_handshake_classification :
    (∀ w : RaceWinner,
        (∃ cert port, parseHandshake w = Except.ok (cert, port)) ↔
          ∃ msg raw, w = RaceWinner.readDone (ReadOutcome.line (some msg) raw)
            ∧ msg.port ≠ 0 ∧ msg.cert ≠ "")
    ∧ (∀ raw, parseHandshake (RaceWinner.readDone (ReadOutcome.line none raw))
        = Except.error ("failed to parse handshake JSON (line: " ++ raw ++ ")"))
    ∧ (∀ msg raw, msg.port = 0 →
        parseHandshake (RaceWinner.readDone (ReadOutcome.line (some msg) raw))
          = Except.error "handshake missing port field")
    ∧ (∀ msg raw, msg.port ≠ 0 → msg.cert = "" →
        parseHandshake (RaceWinner.readDone (ReadOutcome.line (some msg) raw))
          = Except.error "handshake missing cert field")
    ∧ parseHandshake (RaceWinner.readDone ReadOutcome.eof)
        = Except.error "EOF before handshake received"
    ∧ (∀ e, exceptIsOk (parseHandshake (RaceWinner.procExit e)) = false)
    ∧ exceptIsOk (parseHandshake RaceWinner.timeout) = false := by
  refine ⟨?_, ?_, ?_, ?_, ?_, ?_, ?_⟩
  · intro w
    constructor
    · rintro ⟨cert, port, h⟩
      cases w with
      | timeout => simp [parseHandshake] at h
      | procExit e => cases e <;> simp [parseHandshake] at h
      | readDone r =>
        cases r with
        | line decoded raw =>
          cases decoded with
          | none => simp [parseHandshake, handshakeReaderResult] at h
          | some msg =>
            by_cases hp : msg.port = 0
            · simp [parseHandshake, handshakeReaderResult, hp] at h
            · by_cases hcert : msg.cert = ""
              · simp [parseHandshake, handshakeReaderResult, hp, hcert] at h
              · exact ⟨msg, raw, rfl, hp, hcert⟩
        | readErr e => simp [parseHandshake, handshakeReaderResult] at h
        | eof => simp [parseHandshake, handshakeReaderResult] at h
    · rintro ⟨msg, raw, rfl, hp, hcert⟩
      exact ⟨msg.cert, msg.port, by simp [parseHandshake, handshakeReaderResult, hp, hcert]⟩
  · intro raw; rfl
  · intro msg raw hp; simp [parseHandshake, handshakeReaderResult, hp]
  · intro msg raw hp hcert; simp [parseHandshake, handshakeReaderResult, hp, hcert]
  · rfl
  · intro e; cases e <;> rfl
  · rfl

theorem parse_handshake_classification_witness :
    parseHandshake (RaceWinner.readDone (ReadOutcome.line none "garbage-garbage-20b"))
      = Except.error "failed to parse handshake JSON (line: garbage-garbage-20b)"
    ∧ parseHandshake (RaceWinner.readDone
        (ReadOutcome.line (some { cert := "PEM", key := "", port := 0 }) "x"))
      = Except.error "handshake missing port field"
    ∧ parseHandshake (RaceWinner.readDone
        (ReadOutcome.line (some { cert := "PEM", key := "", port := 8443 }) "x"))
      = Except.ok ("PEM", 8443) :=
  ⟨by
      have h := parse_handshake_classification.2.1 "garbage-garbage-20b"
      simpa using h,
    parse_handshake_classification.2.2.1 { cert := "PEM", key := "", port := 0 } "x" rfl,
    by rfl⟩

/-- C9: the only stdin traffic of the secure-binding `Start` is one
JSON object holding exactly the certificate PEM — no key field, no
port field — immediately followed by closing stdin; and the bytes
written are a function of `certPEM` alone: two runs agreeing on
`certPEM` but differing in `keyPEM` write identical stdin content. -/
theorem secure_start_stdin_only_cert (certPEM keyA keyB : String) :
    secureStartStdinOps certPEM keyA = secureStartStdinOps certPEM keyB
    ∧ secureStartStdinOps certPEM keyA
        = [StdinOp.write ("\x7b\"cert\":" ++ goJsonString certPEM ++ "\x7d" ++ "\n"),
            StdinOp.close] := by
  constructor
  · rfl
  · simp [secureStartStdinOps, encodeHandshakeMessage]

/-- C8 counterexample: when the walk finds no config file anywhere,
`locateDenoConfigFile` returns `""` WITHOUT inserting anything into the
cache — so the claimed invariant "after a lookup returns `r` the cache
contains `path -> r`" fails, and a second call walks the tree again. -/
theorem locate_config_notfound_not_cached :
    (locateDenoConfigFile fsNoConfig 10 [] "/a/b/c.ts").2 = []
    ∧ lookupAssoc (locateDenoConfigFile fsNoConfig 10 [] "/a/b/c.ts").2 "/a/b/c.ts"
        ≠ some (locateDenoConfigFile fsNoConfig 10 [] "/a/b/c.ts").1 := by
  constructor
  · rfl
  · intro h
    simp [locateDenoConfigFile, lookupAssoc, fsNoConfig, convertScriptPath, strStartsWith,
      charsStartWith, strContains, charsContain, walkUp, joinPath] at h

/-- C8 (amended): only a successful lookup is cached — when
`locateDenoConfigFile` finds a config file (returns `r ≠ ""`), the
returned cache maps the (URL-converted) script path to `r` and a second
call for the same path returns `(r, cache)` straight from the cache;
a not-found lookup leaves the cache untouched.  The walk itself starts
at the script file directory and moves parent by parent until a config
file is found or the root is reached (the structure of `walkUp`). -/
theorem locate_config_found_cached (fs : DenoFS) (fuel : Nat)
    (cache : List (String × String)) (sp r : String) (cache' : List (String × String))
    (hres : locateDenoConfigFile fs fuel cache sp = (r, cache'))
    (hscheme : strContains (convertScriptPath fs sp) "://" = false)
    (hfound : r ≠ "") :
    lookupAssoc cache' (convertScriptPath fs sp) = some r
    ∧ locateDenoConfigFile fs fuel cache' sp = (r, cache') := by
  simp only [locateDenoConfigFile, hscheme, Bool.false_eq_true, if_false] at hres ⊢
  cases hc : lookupAssoc cache (convertScriptPath fs sp) with
  | some v =>
      rw [hc] at hres
      simp only [Prod.mk.injEq] at hres
      obtain ⟨rfl, rfl⟩ := hres
      refine ⟨hc, ?_⟩
      rw [hc]
  | none =>
      rw [hc] at hres
      by_cases hz : walkUp fs fuel (fs.dirOf (convertScriptPath fs sp)) = ""
      · rw [if_pos hz] at hres
        simp only [Prod.mk.injEq] at hres
        exact absurd hres.1.symm hfound
      · rw [if_neg hz] at hres
        simp only [Prod.mk.injEq] at hres
        obtain ⟨rfl, rfl⟩ := hres
        constructor
        · simp [lookupAssoc]
        · simp [lookupAssoc]


theorem locate_config_found_cached_witness :
    lookupAssoc (locateDenoConfigFile fsWithConfig 10 [] "/a/b/c.ts").2 "/a/b/c.ts"
      = some "/a/deno.json"
    ∧ locateDenoConfigFile fsWithConfig 10
        (locateDenoConfigFile fsWithConfig 10 [] "/a/b/c.ts").2 "/a/b/c.ts"
      = ("/a/deno.json", (locateDenoConfigFile fsWithConfig 10 [] "/a/b/c.ts").2) := by
  have h := locate_config_found_cached fsWithConfig 10 [] "/a/b/c.ts" "/a/deno.json"
    [("/a/b/c.ts", "/a/deno.json")] (by rfl) (by rfl) (by decide)
  exact ⟨h.1, h.2⟩
